import Mathlib

/-!
Verification of the presence/cost calculation engine and the scenario
versioning workflow of the budget-landing application.

The development shallowly embeds the TypeScript sources:
* `utils.ts` (`calculateDayStatus`, the per-day calendar rule resolver),
* the yearly aggregation of `ResourceList` (`getResourceYearlyStats`),
* the per-year stats of the resource calendar view (`yearlyStats`, `yearlyCost`),
* the reference-keyed stats cache of `useResourceStats` (`getCachedResourceStats`),
* `scenarioService.publishScenario` (the atomic publish batch),
* `resourceService` (override updates, holiday imports, resource replication),
* the mutation-guarded editing operations of `useAppLogic`.

JavaScript numbers that only ever hold values of the form `k/2` are modelled
as `Rat`; JS objects used as string-keyed records are modelled as functions
`String → Option Rat`; calendar dates are modelled as `(year, month, day)`
triples with `date-fns`-style formatting (`yyyy-MM-dd`, zero padded) and a
Zeller weekday computation (JS `getDay` convention, 0 = Sunday).
Reference identity of JS objects (the `WeakMap` cache key, freshly allocated
stats objects) is modelled by explicit numeric identities drawn from an
allocation counter.  Firestore writes are modelled as emitted effect values.
The static per-country holiday table of `constants.ts` is not part of the
sources; every definition is parameterised by it (`HOLIDAYS`).
-/

namespace Budget

inductive Country
  | FR
  | PT
  | IN
  | CO
deriving DecidableEq, Repr

inductive ScenarioStatus
  | DRAFT
  | MASTER
  | ARCHIVED
deriving DecidableEq, Repr

inductive EnvelopeType
  | RUN
  | CHANGE
deriving DecidableEq, Repr

structure BudgetEnvelope where
  id : String
  name : String
  type : EnvelopeType
  amount : Rat
deriving DecidableEq, Repr

/-- The `Resource` record of `types.ts`.  The override map
`Record<string, OverrideValue>` is modelled by its lookup function. -/
structure Resource where
  id : String
  firstName : String
  lastName : String
  tjm : Rat
  country : Country
  ratioChange : Rat
  startDate : String
  endDate : String
  overrides : String → Option Rat
  dynamicHolidays : List String

/-- A calendar date, month `1`-`12`, day starting at `1`. -/
structure Date where
  year : Nat
  month : Nat
  day : Nat
deriving DecidableEq, Repr

/-- Decimal digits, most significant first; the fuel argument makes the
recursion structural (any `fuel > log10 n` yields the digits). -/
def natDigitsAux : Nat → Nat → List Char
  | 0, _ => []
  | fuel + 1, n =>
    if n < 10 then [Nat.digitChar n]
    else natDigitsAux fuel (n / 10) ++ [Nat.digitChar (n % 10)]

/-- Decimal digits of `n`, most significant first (the characters of the
JavaScript decimal rendering of a number). -/
def natDigits (n : Nat) : List Char :=
  natDigitsAux (n + 1) n

/-- The JS template-literal rendering of a number (`${n}`): no padding. -/
def natToString (n : Nat) : String :=
  ⟨natDigits n⟩

/-- Decimal rendering of `n` left-padded with zeros to width `w`
(`date-fns` format tokens `yyyy`, `MM`, `dd`). -/
def padNum (w n : Nat) : List Char :=
  List.replicate (w - (natDigits n).length) '0' ++ natDigits n

/-- `format(date, 'yyyy-MM-dd')` of `date-fns`. -/
def formatDate (d : Date) : String :=
  ⟨padNum 4 d.year ++ '-' :: (padNum 2 d.month ++ '-' :: padNum 2 d.day)⟩

/-- Lexicographic comparison of character lists by code point: the JS `<`
on strings (code-unit order; identical on the ASCII date strings used
here). -/
def charListLt : List Char → List Char → Bool
  | _, [] => false
  | [], _ :: _ => true
  | a :: as, b :: bs => decide (a < b) || (a == b && charListLt as bs)

/-- The JS string comparison `s < t`. -/
def strLt (s t : String) : Bool :=
  charListLt s.data t.data

def isLeapYear (y : Nat) : Bool :=
  (y % 4 == 0 && y % 100 != 0) || y % 400 == 0

def daysInMonth (y m : Nat) : Nat :=
  if m = 2 then (if isLeapYear y then 29 else 28)
  else if m = 4 ∨ m = 6 ∨ m = 9 ∨ m = 11 then 30
  else 31

def datesOfMonth (y m : Nat) : List Date :=
  (List.range (daysInMonth y m)).map (fun i => ⟨y, m, i + 1⟩)

/-- `eachDayOfInterval` from Jan 1 to Dec 31 of year `y`. -/
def datesOfYear (y : Nat) : List Date :=
  (List.range 12).flatMap (fun i => datesOfMonth y (i + 1))

/-- Weekday of a Gregorian calendar date, JS `Date.getDay` convention:
`0` = Sunday, …, `6` = Saturday (Zeller's congruence). -/
def dayOfWeek (d : Date) : Nat :=
  let y := if d.month ≤ 2 then d.year - 1 else d.year
  let m := if d.month ≤ 2 then d.month + 12 else d.month
  let K := y % 100
  let J := y / 100
  ((d.day + 13 * (m + 1) / 5 + K + K / 4 + J / 4 + 5 * J) % 7 + 6) % 7

/-- `isWeekend` of `date-fns`: Saturday or Sunday. -/
def isWeekend (d : Date) : Bool :=
  dayOfWeek d == 0 || dayOfWeek d == 6

/-- The day after `d` in the Gregorian calendar. -/
def nextDay (d : Date) : Date :=
  if d.day < daysInMonth d.year d.month then ⟨d.year, d.month, d.day + 1⟩
  else if d.month < 12 then ⟨d.year, d.month + 1, 1⟩
  else ⟨d.year + 1, 1, 1⟩

def dateLe (a b : Date) : Bool :=
  a.year < b.year || (a.year == b.year &&
    (a.month < b.month || (a.month == b.month && a.day ≤ b.day)))

/-- `eachDayOfInterval {start, end}` for an arbitrary window (used by the
bulk override update).  An empty interval yields `[]`. -/
def datesInRangeAux : Nat → Date → Date → List Date
  | 0, _, _ => []
  | fuel + 1, s, e => if dateLe s e then s :: datesInRangeAux fuel (nextDay s) e else []

def datesInRange (s e : Date) : List Date :=
  datesInRangeAux ((e.year + 1 - s.year) * 366 + 366) s e

/-- The result record of `calculateDayStatus` (`DayStatus` in `utils.ts`). -/
structure DayStatus where
  val : Rat
  defaultVal : Rat
  isHoliday : Bool
  isWknd : Bool
  overrideActive : Bool
  isOutOfBounds : Bool
deriving DecidableEq, Repr

/-- `calculateDayStatus` of `utils.ts`, parameterised by the static holiday
table `HOLIDAYS` of `constants.ts` (not part of the sources). -/
def calculateDayStatus (HOLIDAYS : Country → List String) (date : Date)
    (resource : Resource) : DayStatus :=
  let dateStr := formatDate date
  let start := if resource.startDate = "" then "0000-00-00" else resource.startDate
  let stop := if resource.endDate = "" then "9999-12-31" else resource.endDate
  let isOutOfBounds : Bool := strLt dateStr start || strLt stop dateStr
  let countryHolidays := HOLIDAYS resource.country
  let isHoliday : Bool := countryHolidays.contains dateStr
  let isWknd : Bool := isWeekend date
  let defaultVal : Rat := if isHoliday || isWknd then 0 else 1
  let override := resource.overrides dateStr
  let overrideActive : Bool := override.isSome
  let val0 : Rat := match override with
    | some v => v
    | none => defaultVal
  let val : Rat := if isOutOfBounds then 0 else val0
  ⟨val, defaultVal, isHoliday, isWknd, overrideActive, isOutOfBounds⟩

structure YearlyStats where
  days : Rat
  cost : Rat
deriving DecidableEq, Repr

/-- The JS template literal `` `${currentYear}-01-01` `` (note: the year is
not zero-padded). -/
def yearStartLiteral (currentYear : Nat) : String :=
  ⟨(natToString currentYear).data ++ '-' :: "01-01".data⟩

/-- The JS template literal `` `${currentYear}-12-31` ``. -/
def yearEndLiteral (currentYear : Nat) : String :=
  ⟨(natToString currentYear).data ++ '-' :: "12-31".data⟩

/-- `getResourceYearlyStats` of `ResourceList`: the optimized yearly
aggregation.  The missing-bound fallbacks are the JS template literals
above (unpadded year). -/
def getResourceYearlyStats (HOLIDAYS : Country → List String) (currentYear : Nat)
    (res : Resource) : YearlyStats :=
  let defaultStartDate : String := yearStartLiteral currentYear
  let defaultEndDate : String := yearEndLiteral currentYear
  let resStart := if res.startDate = "" then defaultStartDate else res.startDate
  let resEnd := if res.endDate = "" then defaultEndDate else res.endDate
  let totalDays : Rat := (datesOfYear currentYear).foldl (fun totalDays day =>
    let dateStr := formatDate day
    if strLt dateStr resStart || strLt resEnd dateStr then totalDays
    else
      let isHoliday : Bool := (HOLIDAYS res.country).contains dateStr
      let isWknd : Bool := isWeekend day
      let defaultVal : Rat := if isHoliday || isWknd then 0 else 1
      let val : Rat := match res.overrides dateStr with
        | some v => v
        | none => defaultVal
      totalDays + val) 0
  ⟨totalDays, totalDays * res.tjm⟩

/-- `yearlyStats` of the resource calendar view: per-day resolver values
summed over the year, out-of-bounds days skipped. -/
def yearlyStats (HOLIDAYS : Country → List String) (selectedYear : Nat)
    (resource : Resource) : Rat :=
  (datesOfYear selectedYear).foldl (fun total day =>
    let s := calculateDayStatus HOLIDAYS day resource
    if s.isOutOfBounds then total else total + s.val) 0

/-- `yearlyCost` of the resource calendar view. -/
def yearlyCost (HOLIDAYS : Country → List String) (selectedYear : Nat)
    (resource : Resource) : Rat :=
  yearlyStats HOLIDAYS selectedYear resource * resource.tjm

/-- Modelled from the spec: `calculateYearlyStats` (imported by the stats
cache from `utils` but not among the provided source files).  §4.2: iterate
the year's dates; out-of-bounds dates are skipped (missing contract bounds
are unbounded per §4.1); an override value is added directly when present;
otherwise a date in the precomputed country+dynamic holiday set, or a
weekend, contributes 0, and any other date contributes 1; `cost = days *
tjm`. -/
def calculateYearlyStats (HOLIDAYS : Country → List String) (resource : Resource)
    (year : Nat) : YearlyStats :=
  let holidaySet := HOLIDAYS resource.country ++ resource.dynamicHolidays
  let start := if resource.startDate = "" then "0000-00-00" else resource.startDate
  let stop := if resource.endDate = "" then "9999-12-31" else resource.endDate
  let days : Rat := (datesOfYear year).foldl (fun acc day =>
    let dateStr := formatDate day
    if strLt dateStr start || strLt stop dateStr then acc
    else
      match resource.overrides dateStr with
      | some v => acc + v
      | none => if holidaySet.contains dateStr || isWeekend day then acc else acc + 1) 0
  ⟨days, days * resource.tjm⟩

namespace useResourceStats

/-- A stats object returned by the cache; `ref` is its JS object identity
(allocation number). -/
structure StatsObj where
  ref : Nat
  days : Rat
  cost : Rat
  year : Nat
deriving DecidableEq, Repr

/-- The module-level `WeakMap` of `useResourceStats`, keyed by resource
object identity, together with the allocator for fresh object identities. -/
structure CacheState where
  cache : List (Nat × StatsObj)
  nextRef : Nat
deriving DecidableEq, Repr

/-- `WeakMap.set`: insert or overwrite the entry for key `k`. -/
def cacheSet (l : List (Nat × StatsObj)) (k : Nat) (v : StatsObj) :
    List (Nat × StatsObj) :=
  (k, v) :: l.filter (fun p => p.1 != k)

/-- `getCachedResourceStats` of `useResourceStats`: return the cached object
on a reference hit with matching year, else recompute via
`calculateYearlyStats`, allocate a fresh stats object (`{...result, year}`)
and overwrite the cache entry for this resource reference. -/
def getCachedResourceStats (HOLIDAYS : Country → List String)
    (heap : Nat → Resource) (st : CacheState) (resource : Nat) (year : Nat) :
    StatsObj × CacheState :=
  let result := calculateYearlyStats HOLIDAYS (heap resource) year
  let valueToCache : StatsObj := ⟨st.nextRef, result.days, result.cost, year⟩
  let missState : CacheState := ⟨cacheSet st.cache resource valueToCache, st.nextRef + 1⟩
  match st.cache.lookup resource with
  | some cached => if cached.year = year then (cached, st) else (valueToCache, missState)
  | none => (valueToCache, missState)

end useResourceStats

/-- The field values of a resource document as written to the store: a
`Resource` with its `id` stripped (`const { id, ...data } = res`). -/
structure ResourceData where
  firstName : String
  lastName : String
  tjm : Rat
  country : Country
  ratioChange : Rat
  startDate : String
  endDate : String
  overrides : String → Option Rat
  dynamicHolidays : List String

def Resource.toData (r : Resource) : ResourceData :=
  ⟨r.firstName, r.lastName, r.tjm, r.country, r.ratioChange,
   r.startDate, r.endDate, r.overrides, r.dynamicHolidays⟩

/-- A `Partial<Resource>` as passed to `updateDoc`: only the fields that are
present are written. -/
structure ResourcePatch where
  firstName : Option String := none
  lastName : Option String := none
  tjm : Option Rat := none
  country : Option Country := none
  ratioChange : Option Rat := none
  startDate : Option String := none
  endDate : Option String := none
  overrides : Option (String → Option Rat) := none
  dynamicHolidays : Option (List String) := none

/-- Firestore `updateDoc`: merge the patch into the stored resource, leaving
absent fields untouched. -/
def applyResourcePatch (r : Resource) (p : ResourcePatch) : Resource :=
  { id := r.id
    firstName := p.firstName.getD r.firstName
    lastName := p.lastName.getD r.lastName
    tjm := p.tjm.getD r.tjm
    country := p.country.getD r.country
    ratioChange := p.ratioChange.getD r.ratioChange
    startDate := p.startDate.getD r.startDate
    endDate := p.endDate.getD r.endDate
    overrides := p.overrides.getD r.overrides
    dynamicHolidays := p.dynamicHolidays.getD r.dynamicHolidays }

/-- A `Partial<BudgetEnvelope>`. -/
structure EnvelopePatch where
  name : Option String := none
  type : Option EnvelopeType := none
  amount : Option Rat := none

def applyEnvelopePatch (e : BudgetEnvelope) (p : EnvelopePatch) : BudgetEnvelope :=
  { id := e.id
    name := p.name.getD e.name
    type := p.type.getD e.type
    amount := p.amount.getD e.amount }

/-- The `Scenario` document (`types.ts`, with the owner and lineage fields
used by `scenarioService`). -/
structure Scenario where
  id : String
  name : String
  status : ScenarioStatus
  ownerId : String
  parentId : Option String
  envelopes : List BudgetEnvelope
  resources : List Resource
  createdAt : Int
  updatedAt : Int

/-- The data of the new draft document staged by `batch.set` during publish. -/
structure NewDraftDoc where
  name : String
  status : ScenarioStatus
  ownerId : String
  parentId : String
  envelopes : List BudgetEnvelope
  resources : List Resource
  createdAt : Int
  updatedAt : Int

/-- One staged operation of a Firestore `writeBatch` on the scenario
collection. -/
inductive BatchOp where
  | updateStatus (docId : String) (status : ScenarioStatus) (updatedAt : Int)
  | setDraft (docId : String) (data : NewDraftDoc)

namespace scenarioService

/-- The outcome of `publishScenario`: the operations staged in the batch,
how many times the batch was committed, and the returned id. -/
structure PublishResult where
  batchOps : List BatchOp
  commits : Nat
  ret : String

/-- `scenarioService.publishScenario`: stage the archival of every current
master, the promotion of the draft, and the creation of the new draft
document, then commit the single batch and return the new draft's id.
`now` stands for `Date.now()`, `newDraftName` for the timestamp-derived
name, and `newDraftRefId` for the store-generated id of the fresh document
reference. -/
def publishScenario (draftId : String) (userId : String) (draftData : Scenario)
    (currentMasters : List Scenario) (now : Int) (newDraftName : String)
    (newDraftRefId : String) : PublishResult :=
  let archiveOps := currentMasters.map (fun v =>
    BatchOp.updateStatus v.id ScenarioStatus.ARCHIVED now)
  let promoteOp := BatchOp.updateStatus draftId ScenarioStatus.MASTER now
  let newDraftData : NewDraftDoc :=
    ⟨newDraftName, ScenarioStatus.DRAFT, userId, draftId, draftData.envelopes, [], now, now⟩
  let createOp := BatchOp.setDraft newDraftRefId newDraftData
  ⟨archiveOps ++ [promoteOp, createOp], 1, newDraftRefId⟩

end scenarioService

/-- A write against the store, as emitted by the service layer. -/
inductive WriteEff where
  | updateScenarioEnvelopes (scenarioId : String) (envelopes : List BudgetEnvelope)
  | addResource (scenarioId : String) (data : ResourceData)
  | updateResource (scenarioId : String) (resourceId : String) (patch : ResourcePatch)
  | deleteResource (scenarioId : String) (resourceId : String)
  | publishCommit (ops : List BatchOp) (ret : String)
  | copyResources (sourceScenarioId : String) (targetScenarioId : String)

/-- `[...new Set(l)]`: deduplicate keeping the first occurrence of each
element, in order. -/
def newSetArray : List String → List String :=
  go []
where
  go : List String → List String → List String
    | _, [] => []
    | seen, x :: xs => if x ∈ seen then go seen xs else x :: go (x :: seen) xs

namespace resourceService

/-- `resourceService.updateResourceOverride`: set (or, for `undefined`,
delete) the override for one date and write the new override map. -/
def updateResourceOverride (scenarioId : String) (resource : Resource)
    (date : String) (value : Option Rat) : WriteEff :=
  let newOverrides : String → Option Rat :=
    fun k => if k = date then value else resource.overrides k
  .updateResource scenarioId resource.id { overrides := some newOverrides }

/-- `resourceService.bulkUpdateResourceOverrides`: set or delete the
override for every date of the interval and write the new override map. -/
def bulkUpdateResourceOverrides (scenarioId : String) (resource : Resource)
    (startDate endDate : Date) (value : Option Rat) : WriteEff :=
  let newOverrides := (datesInRange startDate endDate).foldl
    (fun acc day => fun k => if k = formatDate day then value else acc k)
    resource.overrides
  .updateResource scenarioId resource.id { overrides := some newOverrides }

/-- `resourceService.applyResourceHolidays`: force an override of `0` on
every imported holiday date and merge the imported dates into
`dynamicHolidays` (`[...new Set([...old, ...imported])]`). -/
def applyResourceHolidays (scenarioId : String) (resource : Resource)
    (externalHolidays : List String) : WriteEff :=
  let newOverrides := externalHolidays.foldl
    (fun acc d => fun k => if k = d then some 0 else acc k)
    resource.overrides
  let newDynamicHolidays := newSetArray (resource.dynamicHolidays ++ externalHolidays)
  .updateResource scenarioId resource.id
    { overrides := some newOverrides, dynamicHolidays := some newDynamicHolidays }

/-- The outcome of `copyResources`: the `(target doc id, data)` pairs staged
with `batch.set`, and how many times the batch was committed. -/
structure CopyResult where
  batch : List (String × ResourceData)
  commits : Nat

/-- `resourceService.copyResources`: read the source scenario's resources,
stage one `set` per resource under a freshly generated document id with the
source id stripped, and commit the batch once (also when it is empty).
`gen i` stands for the store-generated id of the `i`-th fresh document
reference. -/
def copyResources (sourceResources : List Resource) (gen : Nat → String) :
    CopyResult :=
  ⟨sourceResources.enum.map (fun p => (gen p.1, p.2.toData)), 1⟩

end resourceService

namespace useAppLogic

/-- `checkMutationAllowed` of `useAppLogic`: a mutation is allowed only when
there is an active scenario and its status is `DRAFT`. -/
def checkMutationAllowed (scenario? : Option Scenario) : Bool :=
  match scenario? with
  | none => false
  | some sc => decide (sc.status = ScenarioStatus.DRAFT)

def addEnvelope (scenario? : Option Scenario) (envelope : BudgetEnvelope) :
    List WriteEff :=
  match scenario? with
  | none => []
  | some sc =>
    if checkMutationAllowed (some sc) then
      [.updateScenarioEnvelopes sc.id (sc.envelopes ++ [envelope])]
    else []

def updateEnvelope (scenario? : Option Scenario) (id : String)
    (updates : EnvelopePatch) : List WriteEff :=
  match scenario? with
  | none => []
  | some sc =>
    if checkMutationAllowed (some sc) then
      [.updateScenarioEnvelopes sc.id
        (sc.envelopes.map (fun e => if e.id = id then applyEnvelopePatch e updates else e))]
    else []

def deleteEnvelope (scenario? : Option Scenario) (id : String) : List WriteEff :=
  match scenario? with
  | none => []
  | some sc =>
    if checkMutationAllowed (some sc) then
      [.updateScenarioEnvelopes sc.id (sc.envelopes.filter (fun e => e.id != id))]
    else []

def addResource (scenario? : Option Scenario) (resource : Resource) :
    List WriteEff :=
  match scenario? with
  | none => []
  | some sc =>
    if checkMutationAllowed (some sc) then
      [.addResource sc.id resource.toData]
    else []

def updateResource (scenario? : Option Scenario) (id : String)
    (updates : ResourcePatch) : List WriteEff :=
  match scenario? with
  | none => []
  | some sc =>
    if checkMutationAllowed (some sc) then
      [.updateResource sc.id id updates]
    else []

def deleteResource (scenario? : Option Scenario) (id : String) : List WriteEff :=
  match scenario? with
  | none => []
  | some sc =>
    if checkMutationAllowed (some sc) then
      [.deleteResource sc.id id]
    else []

def updateResourceOverride (scenario? : Option Scenario) (resourceId : String)
    (date : String) (value : Option Rat) : List WriteEff :=
  match scenario? with
  | none => []
  | some sc =>
    if checkMutationAllowed (some sc) then
      match sc.resources.find? (fun r => r.id == resourceId) with
      | none => []
      | some res => [resourceService.updateResourceOverride sc.id res date value]
    else []

def bulkUpdateResourceOverrides (scenario? : Option Scenario) (resourceId : String)
    (startDate endDate : Date) (value : Option Rat) : List WriteEff :=
  match scenario? with
  | none => []
  | some sc =>
    if checkMutationAllowed (some sc) then
      match sc.resources.find? (fun r => r.id == resourceId) with
      | none => []
      | some res =>
        [resourceService.bulkUpdateResourceOverrides sc.id res startDate endDate value]
    else []

def applyResourceHolidays (scenario? : Option Scenario) (resourceId : String)
    (externalHolidays : List String) : List WriteEff :=
  match scenario? with
  | none => []
  | some sc =>
    if checkMutationAllowed (some sc) then
      match sc.resources.find? (fun r => r.id == resourceId) with
      | none => []
      | some res => [resourceService.applyResourceHolidays sc.id res externalHolidays]
    else []

/-- `useAppLogic.publishScenario`: guard on an active `DRAFT` scenario and a
signed-in user, then run the atomic publish batch against the scenarios
currently in `MASTER` status and follow up with the resource copy into the
new draft. -/
def publishScenario (scenario? : Option Scenario) (userIdentifier : Option String)
    (versions : List Scenario) (now : Int) (newDraftName : String)
    (newDraftRefId : String) : List WriteEff :=
  match scenario?, userIdentifier with
  | some sc, some uid =>
    if decide (sc.status = ScenarioStatus.DRAFT) then
      let currentMasters := versions.filter (fun v => decide (v.status = ScenarioStatus.MASTER))
      let r := scenarioService.publishScenario sc.id uid sc currentMasters now
        newDraftName newDraftRefId
      [.publishCommit r.batchOps r.ret, .copyResources sc.id r.ret]
    else []
  | _, _ => []

end useAppLogic

/-! ### Decimal digits, padding, and the lexicographic order on formatted dates -/

theorem natDigitsAux_one {fuel n : Nat} (hf : 1 ≤ fuel) (h : n < 10) :
    natDigitsAux fuel n = [Nat.digitChar n] := by
  cases fuel with
  | zero => omega
  | succ f => simp [natDigitsAux, h]

theorem natDigitsAux_two {fuel n : Nat} (hf : 2 ≤ fuel) (h1 : 10 ≤ n) (h2 : n < 100) :
    natDigitsAux fuel n = [Nat.digitChar (n / 10), Nat.digitChar (n % 10)] := by
  cases fuel with
  | zero => omega
  | succ f =>
      have h : ¬ n < 10 := by omega
      simp only [natDigitsAux, h, if_false]
      rw [natDigitsAux_one (by omega) (by omega)]
      rfl

theorem natDigitsAux_three {fuel n : Nat} (hf : 3 ≤ fuel) (h1 : 100 ≤ n) (h2 : n < 1000) :
    natDigitsAux fuel n = [Nat.digitChar (n / 100), Nat.digitChar (n / 10 % 10),
      Nat.digitChar (n % 10)] := by
  cases fuel with
  | zero => omega
  | succ f =>
      have h : ¬ n < 10 := by omega
      simp only [natDigitsAux, h, if_false]
      rw [natDigitsAux_two (by omega) (by omega) (by omega)]
      have e1 : n / 10 / 10 = n / 100 := by omega
      rw [e1]
      rfl

theorem natDigitsAux_four {fuel n : Nat} (hf : 4 ≤ fuel) (h1 : 1000 ≤ n) (h2 : n < 10000) :
    natDigitsAux fuel n = [Nat.digitChar (n / 1000), Nat.digitChar (n / 100 % 10),
      Nat.digitChar (n / 10 % 10), Nat.digitChar (n % 10)] := by
  cases fuel with
  | zero => omega
  | succ f =>
      have h : ¬ n < 10 := by omega
      simp only [natDigitsAux, h, if_false]
      rw [natDigitsAux_three (by omega) (by omega) (by omega)]
      have e1 : n / 10 / 100 = n / 1000 := by omega
      have e2 : n / 10 / 10 % 10 = n / 100 % 10 := by omega
      rw [e1, e2]
      rfl

theorem natDigits_lt_ten {n : Nat} (h : n < 10) : natDigits n = [Nat.digitChar n] :=
  natDigitsAux_one (by omega) h

theorem natDigits_two {n : Nat} (h1 : 10 ≤ n) (h2 : n < 100) :
    natDigits n = [Nat.digitChar (n / 10), Nat.digitChar (n % 10)] :=
  natDigitsAux_two (by omega) h1 h2

theorem natDigits_three {n : Nat} (h1 : 100 ≤ n) (h2 : n < 1000) :
    natDigits n = [Nat.digitChar (n / 100), Nat.digitChar (n / 10 % 10),
      Nat.digitChar (n % 10)] :=
  natDigitsAux_three (by omega) h1 h2

theorem natDigits_four {n : Nat} (h1 : 1000 ≤ n) (h2 : n < 10000) :
    natDigits n = [Nat.digitChar (n / 1000), Nat.digitChar (n / 100 % 10),
      Nat.digitChar (n / 10 % 10), Nat.digitChar (n % 10)] :=
  natDigitsAux_four (by omega) h1 h2

theorem padNum_two {n : Nat} (h : n < 100) :
    padNum 2 n = [Nat.digitChar (n / 10), Nat.digitChar (n % 10)] := by
  rcases Nat.lt_or_ge n 10 with h10 | h10
  · have hd : n / 10 = 0 := by omega
    have hm : n % 10 = n := by omega
    rw [padNum, natDigits_lt_ten h10, hd, hm]
    rfl
  · rw [padNum, natDigits_two h10 h]
    rfl

theorem padNum_four {n : Nat} (h : n < 10000) :
    padNum 4 n = [Nat.digitChar (n / 1000), Nat.digitChar (n / 100 % 10),
      Nat.digitChar (n / 10 % 10), Nat.digitChar (n % 10)] := by
  rcases Nat.lt_or_ge n 10 with h10 | h10
  · have e1 : n / 1000 = 0 := by omega
    have e2 : n / 100 % 10 = 0 := by omega
    have e3 : n / 10 % 10 = 0 := by omega
    have e4 : n % 10 = n := by omega
    rw [padNum, natDigits_lt_ten h10, e1, e2, e3, e4]
    rfl
  rcases Nat.lt_or_ge n 100 with h100 | h100
  · have e1 : n / 1000 = 0 := by omega
    have e2 : n / 100 % 10 = 0 := by omega
    have e3 : n / 10 % 10 = n / 10 := by omega
    rw [padNum, natDigits_two h10 h100, e1, e2, e3]
    rfl
  rcases Nat.lt_or_ge n 1000 with h1000 | h1000
  · have e1 : n / 1000 = 0 := by omega
    have e2 : n / 100 % 10 = n / 100 := by omega
    rw [padNum, natDigits_three h100 h1000, e1, e2]
    rfl
  · rw [padNum, natDigits_four h1000 h]
    rfl

theorem digitChar_lt_iff {a b : Nat} (ha : a < 10) (hb : b < 10) :
    (Nat.digitChar a < Nat.digitChar b) ↔ a < b := by
  interval_cases a <;> interval_cases b <;> simp <;> decide

theorem digitChar_eq_iff {a b : Nat} (ha : a < 10) (hb : b < 10) :
    (Nat.digitChar a = Nat.digitChar b) ↔ a = b := by
  interval_cases a <;> interval_cases b <;> simp <;> decide

/-- Lexicographic comparison splits at a common-length prefix. -/
theorem charListLt_append {xs ys : List Char} (h : xs.length = ys.length)
    (ts us : List Char) :
    charListLt (xs ++ ts) (ys ++ us)
      = (charListLt xs ys || (xs == ys && charListLt ts us)) := by
  induction xs generalizing ys with
  | nil =>
      cases ys with
      | nil => simp [charListLt]
      | cons y ys => simp at h
  | cons x xs ih =>
      cases ys with
      | nil => simp at h
      | cons y ys =>
          simp only [List.length_cons, Nat.add_right_cancel_iff] at h
          show (decide (x < y) || (x == y && charListLt (xs ++ ts) (ys ++ us))) = _
          rw [ih h]
          show _ = ((decide (x < y) || (x == y && charListLt xs ys))
            || ((x == y && xs == ys) && charListLt ts us))
          cases decide (x < y) <;> cases x == y <;> cases charListLt xs ys <;>
            cases xs == ys <;> cases charListLt ts us <;> rfl

theorem padNum_two_lt_iff {a b : Nat} (ha : a < 100) (hb : b < 100) :
    charListLt (padNum 2 a) (padNum 2 b) = true ↔ a < b := by
  rw [padNum_two ha, padNum_two hb]
  have h1 : a / 10 < 10 := by omega
  have h2 : b / 10 < 10 := by omega
  have h3 : a % 10 < 10 := by omega
  have h4 : b % 10 < 10 := by omega
  simp only [charListLt, Bool.or_eq_true, Bool.and_eq_true, decide_eq_true_eq,
    beq_iff_eq, Bool.or_false, Bool.and_false]
  simp only [digitChar_lt_iff h1 h2, digitChar_eq_iff h1 h2,
    digitChar_lt_iff h3 h4, digitChar_eq_iff h3 h4]
  omega

theorem padNum_two_eq_iff {a b : Nat} (ha : a < 100) (hb : b < 100) :
    padNum 2 a = padNum 2 b ↔ a = b := by
  constructor
  · intro h
    rw [padNum_two ha, padNum_two hb] at h
    simp only [List.cons.injEq, and_true] at h
    have h1 : a / 10 < 10 := by omega
    have h2 : b / 10 < 10 := by omega
    have h3 : a % 10 < 10 := by omega
    have h4 : b % 10 < 10 := by omega
    rw [digitChar_eq_iff h1 h2, digitChar_eq_iff h3 h4] at h
    omega
  · intro h
    rw [h]

theorem padNum_four_lt_iff {a b : Nat} (ha : a < 10000) (hb : b < 10000) :
    charListLt (padNum 4 a) (padNum 4 b) = true ↔ a < b := by
  rw [padNum_four ha, padNum_four hb]
  have h1 : a / 1000 < 10 := by omega
  have h2 : b / 1000 < 10 := by omega
  have h3 : a / 100 % 10 < 10 := by omega
  have h4 : b / 100 % 10 < 10 := by omega
  have h5 : a / 10 % 10 < 10 := by omega
  have h6 : b / 10 % 10 < 10 := by omega
  have h7 : a % 10 < 10 := by omega
  have h8 : b % 10 < 10 := by omega
  simp only [charListLt, Bool.or_eq_true, Bool.and_eq_true, decide_eq_true_eq,
    beq_iff_eq, Bool.or_false, Bool.and_false]
  simp only [digitChar_lt_iff h1 h2, digitChar_eq_iff h1 h2,
    digitChar_lt_iff h3 h4, digitChar_eq_iff h3 h4,
    digitChar_lt_iff h5 h6, digitChar_eq_iff h5 h6,
    digitChar_lt_iff h7 h8, digitChar_eq_iff h7 h8]
  omega

theorem padNum_four_eq_iff {a b : Nat} (ha : a < 10000) (hb : b < 10000) :
    padNum 4 a = padNum 4 b ↔ a = b := by
  constructor
  · intro h
    rw [padNum_four ha, padNum_four hb] at h
    simp only [List.cons.injEq, and_true] at h
    have h1 : a / 1000 < 10 := by omega
    have h2 : b / 1000 < 10 := by omega
    have h3 : a / 100 % 10 < 10 := by omega
    have h4 : b / 100 % 10 < 10 := by omega
    have h5 : a / 10 % 10 < 10 := by omega
    have h6 : b / 10 % 10 < 10 := by omega
    have h7 : a % 10 < 10 := by omega
    have h8 : b % 10 < 10 := by omega
    rw [digitChar_eq_iff h1 h2, digitChar_eq_iff h3 h4, digitChar_eq_iff h5 h6,
      digitChar_eq_iff h7 h8] at h
    omega
  · intro h
    rw [h]

theorem padNum_two_length {a : Nat} (ha : a < 100) : (padNum 2 a).length = 2 := by
  rw [padNum_two ha]
  rfl

theorem padNum_four_length {a : Nat} (ha : a < 10000) : (padNum 4 a).length = 4 := by
  rw [padNum_four ha]
  rfl

/-- The `yyyy-MM-dd` rendering is ordered exactly like the
`(year, month, day)` triple, for 4-digit years and 2-digit fields. -/
theorem formatDate_strLt_iff {y1 m1 d1 y2 m2 d2 : Nat}
    (hy1 : y1 < 10000) (hm1 : m1 < 100) (hd1 : d1 < 100)
    (hy2 : y2 < 10000) (hm2 : m2 < 100) (hd2 : d2 < 100) :
    strLt (formatDate ⟨y1, m1, d1⟩) (formatDate ⟨y2, m2, d2⟩) = true ↔
      (y1 < y2 ∨ (y1 = y2 ∧ (m1 < m2 ∨ (m1 = m2 ∧ d1 < d2)))) := by
  show charListLt (padNum 4 y1 ++ '-' :: (padNum 2 m1 ++ '-' :: padNum 2 d1))
      (padNum 4 y2 ++ '-' :: (padNum 2 m2 ++ '-' :: padNum 2 d2)) = true ↔ _
  rw [show ('-' : Char) :: (padNum 2 m1 ++ '-' :: padNum 2 d1)
        = ['-'] ++ (padNum 2 m1 ++ ('-' :: padNum 2 d1)) from rfl,
      show ('-' : Char) :: (padNum 2 m2 ++ '-' :: padNum 2 d2)
        = ['-'] ++ (padNum 2 m2 ++ ('-' :: padNum 2 d2)) from rfl,
      charListLt_append (by rw [padNum_four_length hy1, padNum_four_length hy2]),
      charListLt_append rfl,
      show ('-' : Char) :: padNum 2 d1 = ['-'] ++ padNum 2 d1 from rfl,
      show ('-' : Char) :: padNum 2 d2 = ['-'] ++ padNum 2 d2 from rfl,
      charListLt_append (by rw [padNum_two_length hm1, padNum_two_length hm2]),
      charListLt_append rfl]
  simp only [show charListLt ['-'] ['-'] = false from rfl,
    show (['-'] == ['-'] : Bool) = true from rfl, Bool.false_or, Bool.true_and,
    Bool.or_eq_true, Bool.and_eq_true, beq_iff_eq,
    padNum_four_lt_iff hy1 hy2, padNum_four_eq_iff hy1 hy2,
    padNum_two_lt_iff hm1 hm2, padNum_two_eq_iff hm1 hm2,
    padNum_two_lt_iff hd1 hd2]

/-! ### Sample data used by the witnesses -/

def sampleEnvelope : BudgetEnvelope := ⟨"env-1", "Run budget", EnvelopeType.RUN, 100000⟩

def sampleResource : Resource :=
  ⟨"res-1", "Jean", "Dupont", 500, Country.FR, 0, "2025-01-01", "2025-12-31",
    fun _ => none, []⟩

def sampleDraft : Scenario :=
  ⟨"draft-1", "My Draft", ScenarioStatus.DRAFT, "user-1", none, [sampleEnvelope],
    [sampleResource], 1000, 2000⟩

def sampleMaster : Scenario :=
  ⟨"master-1", "Current master", ScenarioStatus.MASTER, "user-1", none, [], [], 500, 600⟩

def sampleArchived : Scenario :=
  ⟨"arch-1", "Old version", ScenarioStatus.ARCHIVED, "user-1", none, [sampleEnvelope],
    [sampleResource], 1, 2⟩

/-- A resource whose contract starts 2024-01-01 but which carries an explicit
override of `1` on 2023-12-31, the day before the contract. -/
def boundedResource : Resource :=
  ⟨"res-b", "Ada", "Blake", 650, Country.PT, 0, "2024-01-01", "2024-06-30",
    (fun k => if k = "2023-12-31" then some 1 else none), []⟩

/-- The resource of the repository's own dynamic-holiday test: a Wednesday
(2024-06-12) recorded only in `dynamicHolidays`. -/
def dynamicHolidayResource : Resource :=
  ⟨"test-res", "John", "Doe", 500, Country.FR, 0, "2024-01-01", "2024-12-31",
    fun _ => none, ["2024-06-12"]⟩

/-! ### Claim theorems -/

/-- C9: the yearly statistics satisfy `cost = days * tjm` exactly, both in the
optimized aggregation of `ResourceList` and in the resource calendar view's
`yearlyCost`. -/
theorem stats_cost_eq_days_mul_tjm (HOLIDAYS : Country → List String) (Y : Nat)
    (R : Resource) :
    (getResourceYearlyStats HOLIDAYS Y R).cost
        = (getResourceYearlyStats HOLIDAYS Y R).days * R.tjm ∧
      yearlyCost HOLIDAYS Y R = yearlyStats HOLIDAYS Y R * R.tjm := by
  constructor
  · simp only [getResourceYearlyStats]
  · rfl

/-- C1: `publishScenario(D.id, U, D, M)` stages, in one batch committed once,
an `ARCHIVED` status update for every scenario of `M`, a `MASTER` status
update for `D`, and the creation of exactly one new `DRAFT` scenario owned by
`U` with `parentId = D.id` and `D`'s envelopes; it returns the new draft's
id.  With no prior masters the batch holds exactly the promote and the
create. -/
theorem publishScenario_stages_single_atomic_batch
    (D : Scenario) (U : String) (M : List Scenario) (now : Int)
    (newDraftName newDraftRefId : String)
    (hD : D.status = ScenarioStatus.DRAFT)
    (hM : ∀ s ∈ M, s.status = ScenarioStatus.MASTER) :
    (scenarioService.publishScenario D.id U D M now newDraftName newDraftRefId).commits = 1 ∧
    (scenarioService.publishScenario D.id U D M now newDraftName newDraftRefId).batchOps
      = M.map (fun v => BatchOp.updateStatus v.id ScenarioStatus.ARCHIVED now)
        ++ [BatchOp.updateStatus D.id ScenarioStatus.MASTER now,
            BatchOp.setDraft newDraftRefId
              ⟨newDraftName, ScenarioStatus.DRAFT, U, D.id, D.envelopes, [], now, now⟩] ∧
    (scenarioService.publishScenario D.id U D M now newDraftName newDraftRefId).ret
      = newDraftRefId ∧
    (M = [] →
      (scenarioService.publishScenario D.id U D M now newDraftName newDraftRefId).batchOps
        = [BatchOp.updateStatus D.id ScenarioStatus.MASTER now,
           BatchOp.setDraft newDraftRefId
             ⟨newDraftName, ScenarioStatus.DRAFT, U, D.id, D.envelopes, [], now, now⟩]) := by
  refine ⟨rfl, rfl, rfl, ?_⟩
  rintro rfl
  rfl

theorem publishScenario_stages_single_atomic_batch_witness :
    (scenarioService.publishScenario sampleDraft.id "user-1" sampleDraft [sampleMaster]
        99 "DRAFT-202501010000" "new-draft-id").commits = 1 ∧
    (scenarioService.publishScenario sampleDraft.id "user-1" sampleDraft [sampleMaster]
        99 "DRAFT-202501010000" "new-draft-id").ret = "new-draft-id" :=
  ⟨(publishScenario_stages_single_atomic_batch sampleDraft "user-1" [sampleMaster] 99
      "DRAFT-202501010000" "new-draft-id" rfl
      (by intro s hs; rw [List.mem_singleton] at hs; subst hs; rfl)).1,
   (publishScenario_stages_single_atomic_batch sampleDraft "user-1" [sampleMaster] 99
      "DRAFT-202501010000" "new-draft-id" rfl
      (by intro s hs; rw [List.mem_singleton] at hs; subst hs; rfl)).2.2.1⟩

/-- C5: every field-level mutating operation of `useAppLogic`, and the
publish operation, emits no write at all when the active scenario's status
is `MASTER` or `ARCHIVED`. -/
theorem mutation_guard_blocks_non_draft
    (sc : Scenario) (envelope : BudgetEnvelope) (envId : String)
    (envPatch : EnvelopePatch) (resource : Resource) (resId : String)
    (resPatch : ResourcePatch) (date : String) (value : Option Rat)
    (startDate endDate : Date) (externalHolidays : List String)
    (uid : Option String) (versions : List Scenario) (now : Int)
    (newDraftName newDraftRefId : String)
    (h : sc.status = ScenarioStatus.MASTER ∨ sc.status = ScenarioStatus.ARCHIVED) :
    useAppLogic.addEnvelope (some sc) envelope = [] ∧
    useAppLogic.updateEnvelope (some sc) envId envPatch = [] ∧
    useAppLogic.deleteEnvelope (some sc) envId = [] ∧
    useAppLogic.addResource (some sc) resource = [] ∧
    useAppLogic.updateResource (some sc) resId resPatch = [] ∧
    useAppLogic.deleteResource (some sc) resId = [] ∧
    useAppLogic.updateResourceOverride (some sc) resId date value = [] ∧
    useAppLogic.bulkUpdateResourceOverrides (some sc) resId startDate endDate value = [] ∧
    useAppLogic.applyResourceHolidays (some sc) resId externalHolidays = [] ∧
    useAppLogic.publishScenario (some sc) uid versions now newDraftName newDraftRefId = [] := by
  have hne : ¬ sc.status = ScenarioStatus.DRAFT := by
    rcases h with h | h <;> rw [h] <;> intro hc <;> cases hc
  have hguard : useAppLogic.checkMutationAllowed (some sc) = false := by
    simp [useAppLogic.checkMutationAllowed, hne]
  refine ⟨?_, ?_, ?_, ?_, ?_, ?_, ?_, ?_, ?_, ?_⟩
  · simp [useAppLogic.addEnvelope, hguard]
  · simp [useAppLogic.updateEnvelope, hguard]
  · simp [useAppLogic.deleteEnvelope, hguard]
  · simp [useAppLogic.addResource, hguard]
  · simp [useAppLogic.updateResource, hguard]
  · simp [useAppLogic.deleteResource, hguard]
  · simp [useAppLogic.updateResourceOverride, hguard]
  · simp [useAppLogic.bulkUpdateResourceOverrides, hguard]
  · simp [useAppLogic.applyResourceHolidays, hguard]
  · cases uid with
    | none => rfl
    | some u => simp [useAppLogic.publishScenario, hne]

theorem mutation_guard_blocks_non_draft_witness :
    useAppLogic.addEnvelope (some sampleArchived) sampleEnvelope = [] ∧
    useAppLogic.publishScenario (some sampleArchived) (some "user-1") [sampleArchived]
      99 "DRAFT-X" "new-id" = [] :=
  ⟨(mutation_guard_blocks_non_draft sampleArchived sampleEnvelope "env-1" {}
      sampleResource "res-1" {} "2025-01-01" none ⟨2025, 1, 1⟩ ⟨2025, 1, 2⟩ []
      (some "user-1") [sampleArchived] 99 "DRAFT-X" "new-id" (Or.inr rfl)).1,
   (mutation_guard_blocks_non_draft sampleArchived sampleEnvelope "env-1" {}
      sampleResource "res-1" {} "2025-01-01" none ⟨2025, 1, 1⟩ ⟨2025, 1, 2⟩ []
      (some "user-1") [sampleArchived] 99 "DRAFT-X" "new-id"
      (Or.inr rfl)).2.2.2.2.2.2.2.2.2⟩

/-- C3: a date strictly outside the contract bounds (lexicographic ISO
comparison, missing bounds unbounded) yields `val = 0` and
`isOutOfBounds = true`, whatever the override map holds. -/
theorem out_of_bounds_dominates_override (HOLIDAYS : Country → List String)
    (d : Date) (R : Resource)
    (h : strLt (formatDate d)
          (if R.startDate = "" then "0000-00-00" else R.startDate) = true
       ∨ strLt (if R.endDate = "" then "9999-12-31" else R.endDate)
          (formatDate d) = true) :
    (calculateDayStatus HOLIDAYS d R).val = 0 ∧
    (calculateDayStatus HOLIDAYS d R).isOutOfBounds = true := by
  have hb : (strLt (formatDate d)
        (if R.startDate = "" then "0000-00-00" else R.startDate)
      || strLt (if R.endDate = "" then "9999-12-31" else R.endDate)
        (formatDate d)) = true := by
    rcases h with h | h <;> simp [h]
  unfold calculateDayStatus
  simp [hb]

theorem out_of_bounds_dominates_override_witness :
    (calculateDayStatus (fun _ => []) ⟨2023, 12, 31⟩ boundedResource).val = 0 ∧
    (calculateDayStatus (fun _ => []) ⟨2023, 12, 31⟩ boundedResource).isOutOfBounds = true :=
  out_of_bounds_dominates_override (fun _ => []) ⟨2023, 12, 31⟩ boundedResource
    (Or.inl (by decide))

/-- C4 (code bug): `calculateDayStatus` consults only the static per-country
holiday table; a weekday recorded only in `dynamicHolidays` — as in the
repository's own test `src/tests/utils.test.ts` — is reported with
`isHoliday = false` and `val = 1`, while the test (and the spec's
static∪dynamic union rule) expects `isHoliday = true` and `val = 0`.  Per
that test, 2024-06-12 is not in the static FR table, modelled here by the
empty static table. -/
theorem calculateDayStatus_ignores_dynamicHolidays :
    "2024-06-12" ∈ dynamicHolidayResource.dynamicHolidays ∧
    (calculateDayStatus (fun _ => []) ⟨2024, 6, 12⟩ dynamicHolidayResource).isHoliday
      = false ∧
    (calculateDayStatus (fun _ => []) ⟨2024, 6, 12⟩ dynamicHolidayResource).isWknd
      = false ∧
    (calculateDayStatus (fun _ => []) ⟨2024, 6, 12⟩ dynamicHolidayResource).val = 1 := by
  refine ⟨by decide, by decide, by decide, by decide⟩

/-! ### Replication (C7) -/

/-- C7: `copyResources` commits one batch staging one `set` per source
resource, in order, each carrying the source's field values with the id
stripped; under fresh store-generated ids no written id collides with a
source id, and zero resources commit an empty batch. -/
theorem copyResources_replicates_with_fresh_ids
    (sourceResources : List Resource) (gen : Nat → String)
    (hinj : ∀ i j, i < sourceResources.length → j < sourceResources.length →
      gen i = gen j → i = j)
    (hfresh : ∀ i, i < sourceResources.length → ∀ r ∈ sourceResources, gen i ≠ r.id) :
    (resourceService.copyResources sourceResources gen).commits = 1 ∧
    (resourceService.copyResources sourceResources gen).batch.length
      = sourceResources.length ∧
    (resourceService.copyResources sourceResources gen).batch.map Prod.snd
      = sourceResources.map Resource.toData ∧
    ((resourceService.copyResources sourceResources gen).batch.map Prod.fst).Nodup ∧
    (∀ p ∈ (resourceService.copyResources sourceResources gen).batch,
      ∀ r ∈ sourceResources, p.1 ≠ r.id) ∧
    (sourceResources = [] → (resourceService.copyResources sourceResources gen).batch = []) := by
  have hfst : (resourceService.copyResources sourceResources gen).batch.map Prod.fst
      = (List.range sourceResources.length).map gen := by
    show ((sourceResources.enum.map _).map Prod.fst) = _
    rw [List.map_map, ← List.enum_map_fst sourceResources, List.map_map]
    congr 1
  have hsnd : (resourceService.copyResources sourceResources gen).batch.map Prod.snd
      = sourceResources.map Resource.toData := by
    show ((sourceResources.enum.map _).map Prod.snd) = _
    calc (sourceResources.enum.map (fun p => (gen p.1, p.2.toData))).map Prod.snd
        = (sourceResources.enum.map Prod.snd).map Resource.toData := by
          rw [List.map_map, List.map_map]
          congr 1
      _ = sourceResources.map Resource.toData := by rw [List.enum_map_snd]
  refine ⟨rfl, ?_, hsnd, ?_, ?_, ?_⟩
  · show (sourceResources.enum.map _).length = _
    rw [List.length_map, List.enum_length]
  · rw [hfst]
    refine List.Nodup.map_on ?_ (List.nodup_range _)
    intro i hi j hj hg
    rw [List.mem_range] at hi hj
    exact hinj i j hi hj hg
  · intro p hp r hr
    have hmem : p.1 ∈ (resourceService.copyResources sourceResources gen).batch.map Prod.fst :=
      List.mem_map_of_mem Prod.fst hp
    rw [hfst] at hmem
    obtain ⟨i, hi, hgi⟩ := List.mem_map.mp hmem
    rw [List.mem_range] at hi
    rw [← hgi]
    exact hfresh i hi r hr
  · rintro rfl
    rfl

theorem copyResources_replicates_with_fresh_ids_witness :
    (resourceService.copyResources [sampleResource] (fun _ => "fresh-id")).commits = 1 ∧
    (resourceService.copyResources [sampleResource] (fun _ => "fresh-id")).batch.length = 1 ∧
    (∀ p ∈ (resourceService.copyResources [sampleResource] (fun _ => "fresh-id")).batch,
      ∀ r ∈ [sampleResource], p.1 ≠ r.id) :=
  ⟨(copyResources_replicates_with_fresh_ids [sampleResource] (fun _ => "fresh-id")
      (by
        intro i j hi hj _
        simp only [List.length_singleton] at hi hj
        omega)
      (by
        intro i _ r hr
        rw [List.mem_singleton] at hr
        subst hr
        intro hc
        simp [sampleResource] at hc)).1,
   (copyResources_replicates_with_fresh_ids [sampleResource] (fun _ => "fresh-id")
      (by
        intro i j hi hj _
        simp only [List.length_singleton] at hi hj
        omega)
      (by
        intro i _ r hr
        rw [List.mem_singleton] at hr
        subst hr
        intro hc
        simp [sampleResource] at hc)).2.1,
   (copyResources_replicates_with_fresh_ids [sampleResource] (fun _ => "fresh-id")
      (by
        intro i j hi hj _
        simp only [List.length_singleton] at hi hj
        omega)
      (by
        intro i _ r hr
        rw [List.mem_singleton] at hr
        subst hr
        intro hc
        simp [sampleResource] at hc)).2.2.2.2.1⟩

/-! ### Holiday import (C10) -/

theorem foldl_setZero_not_mem {ext : List String} {f0 : String → Option Rat}
    {d : String} (hd : d ∉ ext) :
    (ext.foldl (fun acc d0 => fun k => if k = d0 then some (0 : Rat) else acc k) f0) d
      = f0 d := by
  induction ext generalizing f0 with
  | nil => rfl
  | cons x xs ih =>
      have hdx : d ≠ x := fun e => hd (e ▸ List.mem_cons_self x xs)
      have hdxs : d ∉ xs := fun e => hd (List.mem_cons_of_mem x e)
      rw [List.foldl_cons, ih hdxs]
      simp [hdx]

theorem foldl_setZero_mem {ext : List String} {f0 : String → Option Rat}
    {d : String} (hd : d ∈ ext) :
    (ext.foldl (fun acc d0 => fun k => if k = d0 then some (0 : Rat) else acc k) f0) d
      = some 0 := by
  induction ext generalizing f0 with
  | nil => cases hd
  | cons x xs ih =>
      by_cases hxs : d ∈ xs
      · exact ih hxs
      · have hdx : d = x := by
          rcases List.mem_cons.mp hd with h | h
          · exact h
          · exact absurd h hxs
        rw [List.foldl_cons, foldl_setZero_not_mem hxs]
        simp [hdx]

theorem mem_newSetArray_go {a : String} :
    ∀ (l seen : List String), a ∈ newSetArray.go seen l ↔ a ∈ l ∧ a ∉ seen := by
  intro l
  induction l with
  | nil => intro seen; simp [newSetArray.go]
  | cons x xs ih =>
      intro seen
      by_cases hx : x ∈ seen
      · rw [show newSetArray.go seen (x :: xs) = newSetArray.go seen xs by
          simp [newSetArray.go, hx]]
        rw [ih seen]
        simp only [List.mem_cons]
        constructor
        · rintro ⟨h1, h2⟩
          exact ⟨Or.inr h1, h2⟩
        · rintro ⟨h1, h2⟩
          refine ⟨?_, h2⟩
          rcases h1 with rfl | h1
          · exact absurd hx h2
          · exact h1
      · rw [show newSetArray.go seen (x :: xs) = x :: newSetArray.go (x :: seen) xs by
          simp [newSetArray.go, hx]]
        simp only [List.mem_cons, ih (x :: seen)]
        constructor
        · rintro (rfl | ⟨h1, h2⟩)
          · exact ⟨Or.inl rfl, hx⟩
          · exact ⟨Or.inr h1, fun hs => h2 (Or.inr hs)⟩
        · rintro ⟨h1, h2⟩
          rcases h1 with rfl | h1
          · exact Or.inl rfl
          · by_cases hax : a = x
            · exact Or.inl hax
            · exact Or.inr ⟨h1, fun hs => hs.elim hax h2⟩

theorem nodup_newSetArray_go :
    ∀ (l seen : List String), (newSetArray.go seen l).Nodup := by
  intro l
  induction l with
  | nil => intro seen; simp [newSetArray.go]
  | cons x xs ih =>
      intro seen
      by_cases hx : x ∈ seen
      · rw [show newSetArray.go seen (x :: xs) = newSetArray.go seen xs by
          simp [newSetArray.go, hx]]
        exact ih seen
      · rw [show newSetArray.go seen (x :: xs) = x :: newSetArray.go (x :: seen) xs by
          simp [newSetArray.go, hx]]
        refine List.Nodup.cons ?_ (ih (x :: seen))
        intro hmem
        exact ((mem_newSetArray_go xs (x :: seen)).mp hmem).2 (List.mem_cons_self x seen)

theorem mem_newSetArray {a : String} {l : List String} :
    a ∈ newSetArray l ↔ a ∈ l := by
  show a ∈ newSetArray.go [] l ↔ _
  rw [mem_newSetArray_go l []]
  simp

theorem nodup_newSetArray (l : List String) : (newSetArray l).Nodup :=
  nodup_newSetArray_go l []

/-- C10: `applyResourceHolidays` writes a single resource update whose
override map holds an explicit `0` for every imported holiday date (other
dates untouched), whose `dynamicHolidays` is the deduplicated union of the
previous list and the imported list, and which carries no other field. -/
theorem applyResourceHolidays_zeroes_and_merges
    (scenarioId : String) (r : Resource) (externalHolidays : List String)
    (d d' s : String) (hd : d ∈ externalHolidays) (hd' : d' ∉ externalHolidays) :
    ∃ newOv : String → Option Rat, ∃ newDyn : List String,
      resourceService.applyResourceHolidays scenarioId r externalHolidays
        = WriteEff.updateResource scenarioId r.id
            { overrides := some newOv, dynamicHolidays := some newDyn } ∧
      newOv d = some 0 ∧
      newOv d' = r.overrides d' ∧
      (s ∈ newDyn ↔ s ∈ r.dynamicHolidays ∨ s ∈ externalHolidays) ∧
      newDyn.Nodup ∧
      (∀ r0 : Resource,
        (applyResourcePatch r0
            { overrides := some newOv, dynamicHolidays := some newDyn }).id = r0.id ∧
        (applyResourcePatch r0
            { overrides := some newOv, dynamicHolidays := some newDyn }).firstName
          = r0.firstName ∧
        (applyResourcePatch r0
            { overrides := some newOv, dynamicHolidays := some newDyn }).lastName
          = r0.lastName ∧
        (applyResourcePatch r0
            { overrides := some newOv, dynamicHolidays := some newDyn }).tjm = r0.tjm ∧
        (applyResourcePatch r0
            { overrides := some newOv, dynamicHolidays := some newDyn }).country
          = r0.country ∧
        (applyResourcePatch r0
            { overrides := some newOv, dynamicHolidays := some newDyn }).ratioChange
          = r0.ratioChange ∧
        (applyResourcePatch r0
            { overrides := some newOv, dynamicHolidays := some newDyn }).startDate
          = r0.startDate ∧
        (applyResourcePatch r0
            { overrides := some newOv, dynamicHolidays := some newDyn }).endDate
          = r0.endDate) := by
  refine ⟨externalHolidays.foldl
      (fun acc d0 => fun k => if k = d0 then some 0 else acc k) r.overrides,
    newSetArray (r.dynamicHolidays ++ externalHolidays), rfl,
    foldl_setZero_mem hd, foldl_setZero_not_mem hd', ?_,
    nodup_newSetArray _, ?_⟩
  · rw [mem_newSetArray, List.mem_append]
  · intro r0
    exact ⟨rfl, rfl, rfl, rfl, rfl, rfl, rfl, rfl⟩

theorem applyResourceHolidays_zeroes_and_merges_witness :
    ∃ newOv : String → Option Rat, ∃ newDyn : List String,
      resourceService.applyResourceHolidays "draft-1" dynamicHolidayResource
          ["2024-06-12", "2024-12-25"]
        = WriteEff.updateResource "draft-1" dynamicHolidayResource.id
            { overrides := some newOv, dynamicHolidays := some newDyn } ∧
      newOv "2024-12-25" = some 0 ∧
      newOv "2024-01-02" = dynamicHolidayResource.overrides "2024-01-02" ∧
      ("2024-06-12" ∈ newDyn ↔
        "2024-06-12" ∈ dynamicHolidayResource.dynamicHolidays ∨
          "2024-06-12" ∈ ["2024-06-12", "2024-12-25"]) ∧
      newDyn.Nodup ∧
      (∀ r0 : Resource,
        (applyResourcePatch r0
            { overrides := some newOv, dynamicHolidays := some newDyn }).id = r0.id ∧
        (applyResourcePatch r0
            { overrides := some newOv, dynamicHolidays := some newDyn }).firstName
          = r0.firstName ∧
        (applyResourcePatch r0
            { overrides := some newOv, dynamicHolidays := some newDyn }).lastName
          = r0.lastName ∧
        (applyResourcePatch r0
            { overrides := some newOv, dynamicHolidays := some newDyn }).tjm = r0.tjm ∧
        (applyResourcePatch r0
            { overrides := some newOv, dynamicHolidays := some newDyn }).country
          = r0.country ∧
        (applyResourcePatch r0
            { overrides := some newOv, dynamicHolidays := some newDyn }).ratioChange
          = r0.ratioChange ∧
        (applyResourcePatch r0
            { overrides := some newOv, dynamicHolidays := some newDyn }).startDate
          = r0.startDate ∧
        (applyResourcePatch r0
            { overrides := some newOv, dynamicHolidays := some newDyn }).endDate
          = r0.endDate) :=
  applyResourceHolidays_zeroes_and_merges "draft-1" dynamicHolidayResource
    ["2024-06-12", "2024-12-25"] "2024-12-25" "2024-01-02" "2024-06-12"
    (by decide) (by decide)

/-! ### Default calendar rule (C8) -/

theorem dayOfWeek_lt_seven (d : Date) : dayOfWeek d < 7 :=
  Nat.mod_lt _ (by omega)

/-- C8: with an empty override map, no dynamic holidays and an empty static
holiday table for the resource's country, an in-bounds date resolves to `1`
exactly on Monday through Friday (JS `getDay` 1..5) and to `0` on Saturday
and Sunday. -/
theorem default_rule_weekdays (HOLIDAYS : Country → List String) (d : Date)
    (R : Resource)
    (hov : R.overrides = fun _ => none)
    (hdyn : R.dynamicHolidays = [])
    (hH : HOLIDAYS R.country = [])
    (hin1 : strLt (formatDate d)
      (if R.startDate = "" then "0000-00-00" else R.startDate) = false)
    (hin2 : strLt (if R.endDate = "" then "9999-12-31" else R.endDate)
      (formatDate d) = false) :
    ((calculateDayStatus HOLIDAYS d R).val = 1 ↔
      1 ≤ dayOfWeek d ∧ dayOfWeek d ≤ 5) ∧
    ((dayOfWeek d = 0 ∨ dayOfWeek d = 6) → (calculateDayStatus HOLIDAYS d R).val = 0) := by
  have hval : (calculateDayStatus HOLIDAYS d R).val
      = if isWeekend d then (0 : Rat) else 1 := by
    unfold calculateDayStatus
    simp [hov, hH, hin1, hin2]
  have hwk : isWeekend d = true ↔ (dayOfWeek d = 0 ∨ dayOfWeek d = 6) := by
    simp [isWeekend]
  have hdow := dayOfWeek_lt_seven d
  rw [hval]
  constructor
  · by_cases hw : isWeekend d = true
    · rw [if_pos hw]
      have h06 := hwk.mp hw
      constructor
      · intro h01
        exact absurd h01 (by norm_num)
      · intro hmf
        omega
    · rw [if_neg hw]
      have h06 : ¬ (dayOfWeek d = 0 ∨ dayOfWeek d = 6) := fun hc => hw (hwk.mpr hc)
      constructor
      · intro _
        omega
      · intro _
        rfl
  · intro h06
    rw [if_pos (hwk.mpr h06)]

theorem default_rule_weekdays_witness :
    ((calculateDayStatus (fun _ => []) ⟨2025, 3, 3⟩ sampleResource).val = 1 ↔
      1 ≤ dayOfWeek ⟨2025, 3, 3⟩ ∧ dayOfWeek ⟨2025, 3, 3⟩ ≤ 5) ∧
    ((dayOfWeek ⟨2025, 3, 3⟩ = 0 ∨ dayOfWeek ⟨2025, 3, 3⟩ = 6) →
      (calculateDayStatus (fun _ => []) ⟨2025, 3, 3⟩ sampleResource).val = 0) :=
  default_rule_weekdays (fun _ => []) ⟨2025, 3, 3⟩ sampleResource rfl rfl rfl
    (by decide) (by decide)

/-! ### Stats cache (C6) -/

namespace useResourceStats

theorem lookup_cacheSet_self (l : List (Nat × StatsObj)) (k : Nat) (v : StatsObj) :
    (cacheSet l k v).lookup k = some v := by
  simp [cacheSet, List.lookup]

theorem lookup_filter_ne {l : List (Nat × StatsObj)} {k k' : Nat} (h : k' ≠ k) :
    (l.filter (fun p => p.1 != k)).lookup k' = l.lookup k' := by
  induction l with
  | nil => rfl
  | cons p l ih =>
      obtain ⟨a, v⟩ := p
      by_cases hak : a = k
      · subst hak
        simp only [List.filter, bne_self_eq_false]
        rw [ih]
        have : (k' == a) = false := by simp [h]
        simp [List.lookup, this]
      · have hbne : (a != k) = true := by simp [hak]
        simp only [List.filter, hbne]
        by_cases hk'a : k' = a
        · subst hk'a
          simp [List.lookup]
        · have : (k' == a) = false := by simp [hk'a]
          simp [List.lookup, this, ih]

theorem lookup_cacheSet_ne {l : List (Nat × StatsObj)} {k k' : Nat} (v : StatsObj)
    (h : k' ≠ k) : (cacheSet l k v).lookup k' = l.lookup k' := by
  have : (k' == k) = false := by simp [h]
  simp [cacheSet, List.lookup, this, lookup_filter_ne h]

end useResourceStats

/-- C6: the stats cache is keyed by resource reference identity plus year:
a second call with the same reference and year returns the identical cached
object and leaves the state unchanged; the same reference with a different
year recomputes, returns a distinct object and overwrites the entry; two
distinct references with equal field contents yield two distinct objects
with equal `days` and `cost`. -/
theorem getCachedResourceStats_cache_semantics
    (HOLIDAYS : Country → List String) (heap : Nat → Resource)
    (st : useResourceStats.CacheState) (r1 r2 y1 y2 : Nat)
    (h1 : st.cache.lookup r1 = none) (h2 : st.cache.lookup r2 = none)
    (hr : r1 ≠ r2) (hh : heap r1 = heap r2) (hy : y1 ≠ y2) :
    (useResourceStats.getCachedResourceStats HOLIDAYS heap
        (useResourceStats.getCachedResourceStats HOLIDAYS heap st r1 y1).2 r1 y1
      = useResourceStats.getCachedResourceStats HOLIDAYS heap st r1 y1) ∧
    ((useResourceStats.getCachedResourceStats HOLIDAYS heap
        (useResourceStats.getCachedResourceStats HOLIDAYS heap st r1 y1).2 r1 y2).1.ref
      ≠ (useResourceStats.getCachedResourceStats HOLIDAYS heap st r1 y1).1.ref) ∧
    ((useResourceStats.getCachedResourceStats HOLIDAYS heap
        (useResourceStats.getCachedResourceStats HOLIDAYS heap st r1 y1).2 r1 y2).2.cache.lookup r1
      = some (useResourceStats.getCachedResourceStats HOLIDAYS heap
          (useResourceStats.getCachedResourceStats HOLIDAYS heap st r1 y1).2 r1 y2).1) ∧
    ((useResourceStats.getCachedResourceStats HOLIDAYS heap
        (useResourceStats.getCachedResourceStats HOLIDAYS heap st r1 y1).2 r2 y1).1.ref
      ≠ (useResourceStats.getCachedResourceStats HOLIDAYS heap st r1 y1).1.ref) ∧
    ((useResourceStats.getCachedResourceStats HOLIDAYS heap
        (useResourceStats.getCachedResourceStats HOLIDAYS heap st r1 y1).2 r2 y1).1.days
      = (useResourceStats.getCachedResourceStats HOLIDAYS heap st r1 y1).1.days) ∧
    ((useResourceStats.getCachedResourceStats HOLIDAYS heap
        (useResourceStats.getCachedResourceStats HOLIDAYS heap st r1 y1).2 r2 y1).1.cost
      = (useResourceStats.getCachedResourceStats HOLIDAYS heap st r1 y1).1.cost) := by
  have e1 : useResourceStats.getCachedResourceStats HOLIDAYS heap st r1 y1
      = (⟨st.nextRef, (calculateYearlyStats HOLIDAYS (heap r1) y1).days,
            (calculateYearlyStats HOLIDAYS (heap r1) y1).cost, y1⟩,
         ⟨useResourceStats.cacheSet st.cache r1
            ⟨st.nextRef, (calculateYearlyStats HOLIDAYS (heap r1) y1).days,
              (calculateYearlyStats HOLIDAYS (heap r1) y1).cost, y1⟩,
          st.nextRef + 1⟩) := by
    unfold useResourceStats.getCachedResourceStats
    rw [h1]
  rw [e1]
  have hlook1 : (useResourceStats.cacheSet st.cache r1
      ⟨st.nextRef, (calculateYearlyStats HOLIDAYS (heap r1) y1).days,
        (calculateYearlyStats HOLIDAYS (heap r1) y1).cost, y1⟩).lookup r1
      = some ⟨st.nextRef, (calculateYearlyStats HOLIDAYS (heap r1) y1).days,
          (calculateYearlyStats HOLIDAYS (heap r1) y1).cost, y1⟩ :=
    useResourceStats.lookup_cacheSet_self _ _ _
  have hlook2 : (useResourceStats.cacheSet st.cache r1
      ⟨st.nextRef, (calculateYearlyStats HOLIDAYS (heap r1) y1).days,
        (calculateYearlyStats HOLIDAYS (heap r1) y1).cost, y1⟩).lookup r2
      = none := by
    rw [useResourceStats.lookup_cacheSet_ne _ (Ne.symm hr)]
    exact h2
  refine ⟨?_, ?_, ?_, ?_, ?_, ?_⟩
  · unfold useResourceStats.getCachedResourceStats
    rw [hlook1]
    simp
  · unfold useResourceStats.getCachedResourceStats
    rw [hlook1]
    simp [hy, Ne.symm hy]
  · unfold useResourceStats.getCachedResourceStats
    rw [hlook1]
    simp [hy, useResourceStats.lookup_cacheSet_self]
  · unfold useResourceStats.getCachedResourceStats
    rw [hlook2]
    simp
  · unfold useResourceStats.getCachedResourceStats
    rw [hlook2]
    simp [hh]
  · unfold useResourceStats.getCachedResourceStats
    rw [hlook2]
    simp [hh]

theorem getCachedResourceStats_cache_semantics_witness :
    (useResourceStats.getCachedResourceStats (fun _ => []) (fun _ => sampleResource)
        (useResourceStats.getCachedResourceStats (fun _ => []) (fun _ => sampleResource)
          ⟨[], 0⟩ 0 2025).2 0 2025
      = useResourceStats.getCachedResourceStats (fun _ => []) (fun _ => sampleResource)
          ⟨[], 0⟩ 0 2025) ∧
    ((useResourceStats.getCachedResourceStats (fun _ => []) (fun _ => sampleResource)
        (useResourceStats.getCachedResourceStats (fun _ => []) (fun _ => sampleResource)
          ⟨[], 0⟩ 0 2025).2 0 2024).1.ref
      ≠ (useResourceStats.getCachedResourceStats (fun _ => []) (fun _ => sampleResource)
          ⟨[], 0⟩ 0 2025).1.ref) ∧
    ((useResourceStats.getCachedResourceStats (fun _ => []) (fun _ => sampleResource)
        (useResourceStats.getCachedResourceStats (fun _ => []) (fun _ => sampleResource)
          ⟨[], 0⟩ 0 2025).2 1 2025).1.days
      = (useResourceStats.getCachedResourceStats (fun _ => []) (fun _ => sampleResource)
          ⟨[], 0⟩ 0 2025).1.days) :=
  ⟨(getCachedResourceStats_cache_semantics (fun _ => []) (fun _ => sampleResource)
      ⟨[], 0⟩ 0 1 2025 2024 rfl rfl (by decide) rfl (by decide)).1,
   (getCachedResourceStats_cache_semantics (fun _ => []) (fun _ => sampleResource)
      ⟨[], 0⟩ 0 1 2025 2024 rfl rfl (by decide) rfl (by decide)).2.1,
   (getCachedResourceStats_cache_semantics (fun _ => []) (fun _ => sampleResource)
      ⟨[], 0⟩ 0 1 2025 2024 rfl rfl (by decide) rfl (by decide)).2.2.2.2.1⟩

/-! ### Aggregator/Resolver equivalence (C2) -/

theorem daysInMonth_le (y m : Nat) : daysInMonth y m ≤ 31 := by
  unfold daysInMonth
  split
  · split <;> omega
  · split <;> omega

theorem mem_datesOfYear {Y : Nat} {d : Date} (hd : d ∈ datesOfYear Y) :
    d.year = Y ∧ 1 ≤ d.month ∧ d.month ≤ 12 ∧ 1 ≤ d.day ∧ d.day ≤ 31 := by
  simp only [datesOfYear, List.mem_flatMap, datesOfMonth, List.mem_map,
    List.mem_range] at hd
  obtain ⟨i, hi, j, hj, rfl⟩ := hd
  have hdm := daysInMonth_le Y (i + 1)
  refine ⟨rfl, ?_, ?_, ?_, ?_⟩
  · show 1 ≤ i + 1
    omega
  · show i + 1 ≤ 12
    omega
  · show 1 ≤ j + 1
    omega
  · show j + 1 ≤ 31
    omega

theorem yearStartLiteral_eq {Y : Nat} (h1 : 1000 ≤ Y) (h2 : Y < 10000) :
    yearStartLiteral Y = formatDate ⟨Y, 1, 1⟩ := by
  have hp : padNum 4 Y = natDigits Y := by
    unfold padNum
    rw [natDigits_four h1 h2]
    rfl
  have htail : ('-' : Char) :: "01-01".data = '-' :: (padNum 2 1 ++ '-' :: padNum 2 1) := by
    decide
  show (⟨(natToString Y).data ++ '-' :: "01-01".data⟩ : String)
    = ⟨padNum 4 Y ++ '-' :: (padNum 2 1 ++ '-' :: padNum 2 1)⟩
  rw [hp, ← htail]
  rfl

theorem yearEndLiteral_eq {Y : Nat} (h1 : 1000 ≤ Y) (h2 : Y < 10000) :
    yearEndLiteral Y = formatDate ⟨Y, 12, 31⟩ := by
  have hp : padNum 4 Y = natDigits Y := by
    unfold padNum
    rw [natDigits_four h1 h2]
    rfl
  have htail : ('-' : Char) :: "12-31".data = '-' :: (padNum 2 12 ++ '-' :: padNum 2 31) := by
    decide
  show (⟨(natToString Y).data ++ '-' :: "12-31".data⟩ : String)
    = ⟨padNum 4 Y ++ '-' :: (padNum 2 12 ++ '-' :: padNum 2 31)⟩
  rw [hp, ← htail]
  rfl

theorem strLt_false_of_not {s t : String} (h : ¬ strLt s t = true) :
    strLt s t = false :=
  Bool.eq_false_iff.mpr h

/-- An in-year date is not before Jan 1 of its year. -/
theorem not_strLt_yearStart {Y m dd : Nat} (hY2 : Y < 10000)
    (hm1 : 1 ≤ m) (hm2 : m ≤ 12) (hd1 : 1 ≤ dd) (hd2 : dd ≤ 31) :
    strLt (formatDate ⟨Y, m, dd⟩) (formatDate ⟨Y, 1, 1⟩) = false := by
  apply strLt_false_of_not
  rw [formatDate_strLt_iff hY2 (by omega) (by omega) hY2 (by omega) (by omega)]
  omega

/-- An in-year date is not after Dec 31 of its year. -/
theorem not_strLt_yearEnd {Y m dd : Nat} (hY2 : Y < 10000)
    (hm1 : 1 ≤ m) (hm2 : m ≤ 12) (hd1 : 1 ≤ dd) (hd2 : dd ≤ 31) :
    strLt (formatDate ⟨Y, 12, 31⟩) (formatDate ⟨Y, m, dd⟩) = false := by
  apply strLt_false_of_not
  rw [formatDate_strLt_iff hY2 (by omega) (by omega) hY2 (by omega) (by omega)]
  omega

/-- A 4-digit-year date is not before `0000-00-00`. -/
theorem not_strLt_zeroDate {Y m dd : Nat} (hY1 : 1000 ≤ Y) (hY2 : Y < 10000)
    (hm2 : m ≤ 12) (hd2 : dd ≤ 31) :
    strLt (formatDate ⟨Y, m, dd⟩) "0000-00-00" = false := by
  rw [show ("0000-00-00" : String) = formatDate ⟨0, 0, 0⟩ from by decide]
  apply strLt_false_of_not
  rw [formatDate_strLt_iff hY2 (by omega) (by omega) (by omega) (by omega) (by omega)]
  omega

/-- A 4-digit-year date is not after `9999-12-31`. -/
theorem not_strLt_maxDate {Y m dd : Nat} (hY2 : Y < 10000)
    (hm1 : 1 ≤ m) (hm2 : m ≤ 12) (hd1 : 1 ≤ dd) (hd2 : dd ≤ 31) :
    strLt "9999-12-31" (formatDate ⟨Y, m, dd⟩) = false := by
  rw [show ("9999-12-31" : String) = formatDate ⟨9999, 12, 31⟩ from by decide]
  apply strLt_false_of_not
  rw [formatDate_strLt_iff (by omega) (by omega) (by omega) hY2 (by omega) (by omega)]
  omega

/-- For a date of year `Y` (4-digit), the aggregator's bounds check — with
its year-literal fallbacks — agrees with the resolver's bounds check with
its unbounded fallbacks. -/
theorem oob_cond_eq (Y : Nat) (R : Resource) (hY1 : 1000 ≤ Y) (hY2 : Y < 10000)
    {d : Date} (hd : d ∈ datesOfYear Y) :
    (strLt (formatDate d) (if R.startDate = "" then yearStartLiteral Y else R.startDate)
      || strLt (if R.endDate = "" then yearEndLiteral Y else R.endDate) (formatDate d))
    = (strLt (formatDate d) (if R.startDate = "" then "0000-00-00" else R.startDate)
      || strLt (if R.endDate = "" then "9999-12-31" else R.endDate) (formatDate d)) := by
  obtain ⟨hyear, hm1, hm2, hd1, hd2⟩ := mem_datesOfYear hd
  obtain ⟨Yd, m, dd⟩ := d
  simp only at hyear hm1 hm2 hd1 hd2
  subst hyear
  congr 1
  · by_cases hs : R.startDate = ""
    · rw [if_pos hs, if_pos hs, yearStartLiteral_eq hY1 hY2,
        not_strLt_yearStart hY2 hm1 hm2 hd1 hd2,
        not_strLt_zeroDate hY1 hY2 hm2 hd2]
    · rw [if_neg hs, if_neg hs]
  · by_cases hs : R.endDate = ""
    · rw [if_pos hs, if_pos hs, yearEndLiteral_eq hY1 hY2,
        not_strLt_yearEnd hY2 hm1 hm2 hd1 hd2,
        not_strLt_maxDate hY2 hm1 hm2 hd1 hd2]
    · rw [if_neg hs, if_neg hs]

/-- The aggregator's fold unrolled: skipped days contribute `0`. -/
theorem foldl_if_skip_eq_sum (l : List Date) (g : Date → Bool) (f : Date → Rat)
    (init : Rat) :
    l.foldl (fun acc d => if g d then acc else acc + f d) init
      = init + (l.map (fun d => if g d then (0 : Rat) else f d)).sum := by
  induction l generalizing init with
  | nil => simp
  | cons x xs ih =>
      rw [List.foldl_cons, ih, List.map_cons, List.sum_cons]
      by_cases hg : g x = true
      · rw [if_pos hg, if_pos hg]
        ring
      · rw [if_neg hg, if_neg hg]
        ring

/-- The `days` field of the aggregation, written as an explicit fold. -/
theorem getResourceYearlyStats_days_foldl (HOLIDAYS : Country → List String)
    (Y : Nat) (R : Resource) :
    (getResourceYearlyStats HOLIDAYS Y R).days
      = (datesOfYear Y).foldl (fun acc day =>
          if (strLt (formatDate day)
                (if R.startDate = "" then yearStartLiteral Y else R.startDate)
              || strLt (if R.endDate = "" then yearEndLiteral Y else R.endDate)
                (formatDate day)) = true
          then acc
          else acc + (match R.overrides (formatDate day) with
            | some v => v
            | none =>
                if ((HOLIDAYS R.country).contains (formatDate day)
                    || isWeekend day) = true
                then (0 : Rat) else 1)) 0 := by
  simp only [getResourceYearlyStats]

/-- The per-day resolver value, written without the record. -/
theorem calculateDayStatus_val_eq (HOLIDAYS : Country → List String) (d : Date)
    (R : Resource) :
    (calculateDayStatus HOLIDAYS d R).val
      = (if (strLt (formatDate d)
              (if R.startDate = "" then "0000-00-00" else R.startDate)
            || strLt (if R.endDate = "" then "9999-12-31" else R.endDate)
              (formatDate d)) = true
        then (0 : Rat)
        else (match R.overrides (formatDate d) with
          | some v => v
          | none =>
              if ((HOLIDAYS R.country).contains (formatDate d)
                  || isWeekend d) = true
              then (0 : Rat) else 1)) := by
  unfold calculateDayStatus
  by_cases hc : (strLt (formatDate d)
        (if R.startDate = "" then "0000-00-00" else R.startDate)
      || strLt (if R.endDate = "" then "9999-12-31" else R.endDate)
        (formatDate d)) = true
  · simp only [hc, if_true]
  · simp only [Bool.eq_false_iff.mpr hc, Bool.false_eq_true, if_false]

/-- C2 (amended to 4-digit years): for every resource and every 4-digit year,
the optimized aggregation's `days` equals the sum of the per-day resolver
values over every date of the year. -/
theorem aggregator_days_eq_resolver_sum (HOLIDAYS : Country → List String)
    (Y : Nat) (R : Resource) (hY1 : 1000 ≤ Y) (hY2 : Y < 10000) :
    (getResourceYearlyStats HOLIDAYS Y R).days
      = ((datesOfYear Y).map (fun d => (calculateDayStatus HOLIDAYS d R).val)).sum := by
  rw [getResourceYearlyStats_days_foldl,
    foldl_if_skip_eq_sum (datesOfYear Y)
      (fun day => strLt (formatDate day)
          (if R.startDate = "" then yearStartLiteral Y else R.startDate)
        || strLt (if R.endDate = "" then yearEndLiteral Y else R.endDate)
          (formatDate day))
      (fun day => match R.overrides (formatDate day) with
        | some v => v
        | none =>
            if ((HOLIDAYS R.country).contains (formatDate day)
                || isWeekend day) = true
            then (0 : Rat) else 1),
    zero_add]
  apply congrArg
  apply List.map_congr_left
  intro d hd
  rw [calculateDayStatus_val_eq, oob_cond_eq Y R hY1 hY2 hd]

theorem aggregator_days_eq_resolver_sum_witness :
    (getResourceYearlyStats (fun _ => []) 2025 sampleResource).days
      = ((datesOfYear 2025).map
          (fun d => (calculateDayStatus (fun _ => []) d sampleResource).val)).sum :=
  aggregator_days_eq_resolver_sum (fun _ => []) 2025 sampleResource (by omega) (by omega)

/-- A resource with no explicit contract start and a 3-digit-year contract
end: the aggregator's unpadded fallback `` `${999}-01-01` `` is compared
against the zero-padded `0999-…` date strings. -/
def res999 : Resource :=
  ⟨"res-999", "Ada", "Lovelace", 500, Country.PT, 0, "", "0999-01-03",
    fun _ => none, []⟩

/-- C2 counterexample: for year 999 and a resource with a missing start
date, the aggregation (whose fallback start bound is the unpadded string
`999-01-01`) skips every day of the year and returns 0 days, while the
per-day resolver sum is positive — the claim fails as stated for years
below 1000. -/
theorem aggregator_resolver_mismatch_year999 :
    ¬ ((getResourceYearlyStats (fun _ => []) 999 res999).days
      = ((datesOfYear 999).map
          (fun d => (calculateDayStatus (fun _ => []) d res999).val)).sum) := by
  intro hEq
  have hskip : ∀ d ∈ datesOfYear 999,
      (strLt (formatDate d)
          (if res999.startDate = "" then yearStartLiteral 999 else res999.startDate)
        || strLt (if res999.endDate = "" then yearEndLiteral 999 else res999.endDate)
          (formatDate d)) = true := by
    intro d hd
    obtain ⟨hyear, hm1, hm2, hd1, hd2⟩ := mem_datesOfYear hd
    obtain ⟨Yd, m, dd⟩ := d
    simp only at hyear
    subst hyear
    have hstart : strLt (formatDate ⟨999, m, dd⟩) (yearStartLiteral 999) = true := by
      show charListLt (padNum 4 999 ++ '-' :: (padNum 2 m ++ '-' :: padNum 2 dd))
        (yearStartLiteral 999).data = true
      rw [show padNum 4 999 = ['0', '9', '9', '9'] from rfl,
        show (yearStartLiteral 999).data = ['9', '9', '9', '-', '0', '1', '-', '0', '1']
          from rfl]
      rfl
    simp [res999, hstart]
  have hdays : (getResourceYearlyStats (fun _ => []) 999 res999).days = 0 := by
    rw [getResourceYearlyStats_days_foldl,
      foldl_if_skip_eq_sum (datesOfYear 999)
        (fun day => strLt (formatDate day)
            (if res999.startDate = "" then yearStartLiteral 999 else res999.startDate)
          || strLt (if res999.endDate = "" then yearEndLiteral 999 else res999.endDate)
            (formatDate day))
        (fun day => match res999.overrides (formatDate day) with
          | some v => v
          | none =>
              if (((fun _ => ([] : List String)) res999.country).contains (formatDate day)
                  || isWeekend day) = true
              then (0 : Rat) else 1),
      zero_add]
    apply List.sum_eq_zero
    intro x hx
    obtain ⟨d, hd, rfl⟩ := List.mem_map.mp hx
    rw [if_pos (hskip d hd)]
  have hjan : (calculateDayStatus (fun _ => []) ⟨999, 1, 1⟩ res999).val = 1 := by decide
  have hmem : (⟨999, 1, 1⟩ : Date) ∈ datesOfYear 999 := by decide
  have hnonneg : ∀ x ∈ (datesOfYear 999).map
      (fun d => (calculateDayStatus (fun _ => []) d res999).val), 0 ≤ x := by
    intro x hx
    obtain ⟨d, hd, rfl⟩ := List.mem_map.mp hx
    rw [calculateDayStatus_val_eq]
    by_cases hc : (strLt (formatDate d)
        (if res999.startDate = "" then "0000-00-00" else res999.startDate)
      || strLt (if res999.endDate = "" then "9999-12-31" else res999.endDate)
        (formatDate d)) = true
    · rw [if_pos hc]
    · rw [if_neg hc]
      show (0 : Rat) ≤ if (([] : List String).contains (formatDate d)
          || isWeekend d) = true then (0 : Rat) else 1
      by_cases hw : (([] : List String).contains (formatDate d)
          || isWeekend d) = true
      · rw [if_pos hw]
      · rw [if_neg hw]
        norm_num
  have hone : (1 : Rat) ∈ (datesOfYear 999).map
      (fun d => (calculateDayStatus (fun _ => []) d res999).val) := by
    rw [← hjan]
    exact List.mem_map_of_mem _ hmem
  have hle := List.single_le_sum hnonneg 1 hone
  rw [hdays] at hEq
  rw [← hEq] at hle
  norm_num at hle

end Budget
